import Mathlib

/-!
Verification development for the `riscv_plic` crate: a driver for the
RISC-V Platform-Level Interrupt Controller (PLIC).

The register file layout (`PLICRegs`, `ContextLocal`, `InterruptEnableCtxX`)
and the driver operations (`Plic::new`, `init_by_context`, `set_priority`,
`get_priority`, `probe_priority_bits`, `is_pending`, `enable`, `disable`,
`is_enabled`, `get_threshold`, `set_threshold`, `probe_threshold_bits`,
`claim`, `complete`, `parse_group_and_index` in `src/lib.rs`, and
`SimpleContext::index` in `src/hart.rs`) are shallowly embedded below.
Register words are modelled as `Nat` values reduced modulo `2 ^ 32` where a
write occurs; operations that panic in Rust (out-of-bounds array indexing,
failed `unwrap`, failed `assert!`) are modelled as returning `none`.
-/

namespace RiscvPlic

/-- Constant `const SOURCE_NUM: usize = 1024` from `src/lib.rs`. -/
def SOURCE_NUM : Nat := 1024

/-- Constant `const CONTEXT_NUM: usize = 15872` from `src/lib.rs`. -/
def CONTEXT_NUM : Nat := 15872

/-- Constant `const U32_BITS: usize = u32::BITS as usize` from `src/lib.rs`. -/
def U32_BITS : Nat := 32

/-- Modulus of a `u32` register word. -/
def U32_MOD : Nat := 4294967296

/-- All-ones `u32` word, the value `!0u32` used by the probe operations and
by `!(1 << index)` in `disable`. -/
def U32_MASK : Nat := 4294967295

/-! ## Register file geometry

Byte offsets transcribed from the `register_structs!` declarations of
`ContextLocal`, `InterruptEnableCtxX` and `PLICRegs` in `src/lib.rs`. -/

/-- Field `(0x0000 => PriorityThreshold)` in `ContextLocal`. -/
def ContextLocal.PriorityThreshold_off : Nat := 0x0000

/-- Field `(0x0004 => InterruptClaimComplete)` in `ContextLocal`. -/
def ContextLocal.InterruptClaimComplete_off : Nat := 0x0004

/-- Marker `(0x1000 => @END)` of `ContextLocal`: each context-local block is 4096
bytes. -/
def ContextLocal.size : Nat := 0x1000

/-- Field `(0x00 => InterruptSources: [ReadWrite<u32>; SOURCE_NUM / U32_BITS])`
in `InterruptEnableCtxX`. -/
def InterruptEnableCtxX.InterruptSources_off : Nat := 0x00

/-- Marker `(0x80 => @END)` of `InterruptEnableCtxX`: each per-context enable block
 is 128 bytes. -/
def InterruptEnableCtxX.size : Nat := 0x80

/-- Field `(0x000000 => InterruptPriority: [ReadWrite<u32>; SOURCE_NUM])` in
`PLICRegs`. -/
def PLICRegs.InterruptPriority_off : Nat := 0x000000

/-- Field `(0x001000 => InterruptPending: [ReadOnly<u32>; 0x20])` in `PLICRegs`. -/
def PLICRegs.InterruptPending_off : Nat := 0x001000

/-- Number of pending words: `[ReadOnly<u32>; 0x20]`. -/
def PLICRegs.InterruptPending_len : Nat := 0x20

/-- Field `(0x002000 => InterruptEnableCtxX: [InterruptEnableCtxX; CONTEXT_NUM])`
in `PLICRegs`. -/
def PLICRegs.InterruptEnableCtxX_off : Nat := 0x002000

/-- Field `(0x200000 => Contexts: [ContextLocal; CONTEXT_NUM])` in `PLICRegs`. -/
def PLICRegs.Contexts_off : Nat := 0x200000

/-- Marker `(0x4000000 => @END)` of `PLICRegs`: total span of the register file. -/
def PLICRegs.size : Nat := 0x4000000

/-- Byte offset of the priority word for source `s`. -/
def priorityOffset (s : Nat) : Nat := PLICRegs.InterruptPriority_off + 4 * s

/-- Byte offset of pending word number `g`. -/
def pendingOffset (g : Nat) : Nat := PLICRegs.InterruptPending_off + 4 * g

/-- Byte offset of enable word number `g` of context `c`. -/
def enableWordOffset (c g : Nat) : Nat :=
  PLICRegs.InterruptEnableCtxX_off + InterruptEnableCtxX.size * c +
    InterruptEnableCtxX.InterruptSources_off + 4 * g

/-- Byte offset of the threshold word of context `c`. -/
def thresholdOffset (c : Nat) : Nat :=
  PLICRegs.Contexts_off + ContextLocal.size * c +
    ContextLocal.PriorityThreshold_off

/-- Byte offset of the claim/complete word of context `c`. -/
def claimCompleteOffset (c : Nat) : Nat :=
  PLICRegs.Contexts_off + ContextLocal.size * c +
    ContextLocal.InterruptClaimComplete_off

/-- Claim C1: the register file geometry is bit-exact: the 1024-word priority
array starts at offset 0, immediately followed by the 32-word pending bitmap
at 0x1000; the enable region starts at 0x2000 with a 128-byte stride per
context holding `SOURCE_NUM / U32_BITS = 32` enable words; the context-local
region starts at 0x200000 with a 4096-byte stride per context, threshold at
offset 0 and claim/complete at offset 4 inside each block; the whole file
spans 0x4000000 bytes and every region fits inside it. -/
theorem C1_layout :
    (priorityOffset 0 = 0x000000 ∧
      (∀ s : Nat, priorityOffset (s + 1) = priorityOffset s + 4) ∧
      priorityOffset SOURCE_NUM = PLICRegs.InterruptPending_off) ∧
    (pendingOffset 0 = 0x001000 ∧
      (∀ g : Nat, pendingOffset (g + 1) = pendingOffset g + 4) ∧
      PLICRegs.InterruptPending_len = 0x20 ∧
      pendingOffset PLICRegs.InterruptPending_len ≤
        PLICRegs.InterruptEnableCtxX_off) ∧
    (enableWordOffset 0 0 = 0x002000 ∧
      (∀ c : Nat, enableWordOffset (c + 1) 0 = enableWordOffset c 0 + 128) ∧
      SOURCE_NUM / U32_BITS = 32 ∧
      (∀ c g : Nat, enableWordOffset c (g + 1) = enableWordOffset c g + 4) ∧
      (∀ c : Nat, enableWordOffset c (SOURCE_NUM / U32_BITS) =
        enableWordOffset (c + 1) 0) ∧
      enableWordOffset CONTEXT_NUM 0 ≤ PLICRegs.Contexts_off) ∧
    (thresholdOffset 0 = 0x200000 ∧
      (∀ c : Nat, thresholdOffset (c + 1) = thresholdOffset c + 4096) ∧
      (∀ c : Nat, claimCompleteOffset c = thresholdOffset c + 4) ∧
      thresholdOffset CONTEXT_NUM = PLICRegs.size) ∧
    PLICRegs.size = 0x4000000 := by
  refine ⟨⟨rfl, fun s => ?_, by decide⟩,
    ⟨rfl, fun g => ?_, rfl, by decide⟩,
    ⟨rfl, fun c => ?_, rfl, fun c g => ?_, fun c => ?_, by decide⟩,
    ⟨rfl, fun c => ?_, fun c => rfl, by decide⟩, rfl⟩ <;>
  · simp only [priorityOffset, pendingOffset, enableWordOffset,
      thresholdOffset, claimCompleteOffset, InterruptEnableCtxX.size,
      ContextLocal.size, SOURCE_NUM, U32_BITS,
      InterruptEnableCtxX.InterruptSources_off,
      ContextLocal.PriorityThreshold_off]
    omega

/-! ## Register file state

The memory-mapped words of `PLICRegs`, indexed the way the driver indexes
them: priority by source id, pending by 32-source group, enable by
(context, group), threshold by context.  The claim/complete register has no
architected stored value — reading it triggers the controller's arbitration
and writing it signals completion — so it carries no field here; its
behaviour is modelled separately in `HwState`. -/
structure PLICRegs where
  InterruptPriority : Nat → Nat
  InterruptPending : Nat → Nat
  InterruptEnable : Nat → Nat → Nat
  PriorityThreshold : Nat → Nat

/-- Embeds `fn parse_group_and_index(source: usize) -> (usize, usize)` from
`src/lib.rs`. -/
def parse_group_and_index (source : Nat) : Nat × Nat :=
  (source / U32_BITS, source % U32_BITS)

/-- The bit test pattern `word & (1 << index) != 0` used by `is_pending`
and `is_enabled` in `src/lib.rs`. -/
def bitGet (word index : Nat) : Bool :=
  word &&& (1 <<< index) != 0

namespace Plic

/-- Embeds `Plic::new(base: *mut u8)` from `src/lib.rs`:
`NonNull::new(base).unwrap()` panics exactly when `base` is null. -/
def new (base : Nat) : Option Nat :=
  if base = 0 then none else some base

/-- Core state update of `init_by_context`: write 0 into the threshold word
of `context`. -/
def initCore (r : PLICRegs) (context : Nat) : PLICRegs :=
  { r with PriorityThreshold := fun c => if c = context then 0
      else r.PriorityThreshold c }

/-- Embeds `Plic::init_by_context` from `src/lib.rs`:
`self.regs().Contexts[context.index()].PriorityThreshold.set(0)`;
the array indexing panics when `context ≥ CONTEXT_NUM`. -/
def init_by_context (r : PLICRegs) (context : Nat) : Option PLICRegs :=
  if context < CONTEXT_NUM then some (initCore r context) else none

/-- Embeds `Plic::set_priority` from `src/lib.rs`:
`self.regs().InterruptPriority[source.id().get() as usize].set(value)`;
panics when `source ≥ SOURCE_NUM`. -/
def set_priority (r : PLICRegs) (source value : Nat) : Option PLICRegs :=
  if source < SOURCE_NUM then
    some { r with InterruptPriority := fun s => if s = source
        then value % U32_MOD else r.InterruptPriority s }
  else none

/-- Embeds `Plic::get_priority` from `src/lib.rs`. -/
def get_priority (r : PLICRegs) (source : Nat) : Option Nat :=
  if source < SOURCE_NUM then some (r.InterruptPriority source) else none

/-- Embeds `Plic::probe_priority_bits` from `src/lib.rs`: write `!0`, read back.
Returns the read-back value together with the new state. -/
def probe_priority_bits (r : PLICRegs) (source : Nat) :
    Option (Nat × PLICRegs) :=
  if source < SOURCE_NUM then
    let r2 : PLICRegs :=
      { r with InterruptPriority := fun s => if s = source
          then U32_MASK else r.InterruptPriority s }
    some (r2.InterruptPriority source, r2)
  else none

/-- Embeds `Plic::is_pending` from `src/lib.rs`:
`self.regs().InterruptPending[group].get() & (1 << index) != 0`;
the array indexing panics when `group ≥ 0x20`. -/
def is_pending (r : PLICRegs) (source : Nat) : Option Bool :=
  let gi := parse_group_and_index source
  if gi.1 < PLICRegs.InterruptPending_len then
    some (bitGet (r.InterruptPending gi.1) gi.2)
  else none

/-- Core state update of `enable`: read-modify-write
`value | 1 << index` into enable word `(context, group)`. -/
def enableCore (r : PLICRegs) (source context : Nat) : PLICRegs :=
  let gi := parse_group_and_index source
  let value := r.InterruptEnable context gi.1
  { r with InterruptEnable := fun c g =>
      if c = context then (if g = gi.1 then value ||| (1 <<< gi.2)
        else r.InterruptEnable c g)
      else r.InterruptEnable c g }

/-- Embeds `Plic::enable` from `src/lib.rs`; the indexing
`InterruptEnableCtxX[context].InterruptSources[group]` panics when
`context ≥ CONTEXT_NUM` or `group ≥ SOURCE_NUM / U32_BITS`. -/
def enable (r : PLICRegs) (source context : Nat) : Option PLICRegs :=
  if context < CONTEXT_NUM ∧
      (parse_group_and_index source).1 < SOURCE_NUM / U32_BITS then
    some (enableCore r source context)
  else none

/-- Core state update of `disable`: read-modify-write
`value & !(1 << index)` into enable word `(context, group)`; on `u32` the
complement `!(1 << index)` is `U32_MASK ^^^ (1 <<< index)`. -/
def disableCore (r : PLICRegs) (source context : Nat) : PLICRegs :=
  let gi := parse_group_and_index source
  let value := r.InterruptEnable context gi.1
  { r with InterruptEnable := fun c g =>
      if c = context then (if g = gi.1 then
          value &&& (U32_MASK ^^^ (1 <<< gi.2))
        else r.InterruptEnable c g)
      else r.InterruptEnable c g }

/-- Embeds `Plic::disable` from `src/lib.rs`. -/
def disable (r : PLICRegs) (source context : Nat) : Option PLICRegs :=
  if context < CONTEXT_NUM ∧
      (parse_group_and_index source).1 < SOURCE_NUM / U32_BITS then
    some (disableCore r source context)
  else none

/-- Embeds `Plic::is_enabled` from `src/lib.rs`:
`InterruptEnableCtxX[context].InterruptSources[group].get() & (1 << index) != 0`. -/
def is_enabled (r : PLICRegs) (source context : Nat) : Option Bool :=
  let gi := parse_group_and_index source
  if context < CONTEXT_NUM ∧ gi.1 < SOURCE_NUM / U32_BITS then
    some (bitGet (r.InterruptEnable context gi.1) gi.2)
  else none

/-- Embeds `Plic::get_threshold` from `src/lib.rs`. -/
def get_threshold (r : PLICRegs) (context : Nat) : Option Nat :=
  if context < CONTEXT_NUM then some (r.PriorityThreshold context) else none

/-- Embeds `Plic::set_threshold` from `src/lib.rs`. -/
def set_threshold (r : PLICRegs) (context value : Nat) : Option PLICRegs :=
  if context < CONTEXT_NUM then
    some { r with PriorityThreshold := fun c => if c = context
        then value % U32_MOD else r.PriorityThreshold c }
  else none

/-- Embeds `Plic::probe_threshold_bits` from `src/lib.rs`: write `!0` to the
threshold word, read back. -/
def probe_threshold_bits (r : PLICRegs) (context : Nat) :
    Option (Nat × PLICRegs) :=
  if context < CONTEXT_NUM then
    let r2 : PLICRegs :=
      { r with PriorityThreshold := fun c => if c = context
          then U32_MASK else r.PriorityThreshold c }
    some (r2.PriorityThreshold context, r2)
  else none

end Plic

/-! ## Hardware side of the claim/complete handshake

The driver's `claim` is a single read of the claim/complete register and
`complete` is a single write to it; what those accesses mean is controller
behaviour, not code of this crate. -/

/-- Modelled from the spec: controller state — the register words plus the
per-context outstanding claim token (the source id delivered by the last
claim read and not yet completed). -/
structure HwState where
  regs : PLICRegs
  claimed : Nat → Option Nat

/-- Modelled from the spec: a source is eligible for claim in context `c`
when it is a real source id (in `[1, SOURCE_NUM)`), its pending bit is set,
its enable bit for `c` is set, and its priority strictly exceeds the
threshold of `c`. -/
def eligible (r : PLICRegs) (c s : Nat) : Bool :=
  decide (1 ≤ s) && decide (s < SOURCE_NUM) &&
    bitGet (r.InterruptPending (s / U32_BITS)) (s % U32_BITS) &&
    bitGet (r.InterruptEnable c (s / U32_BITS)) (s % U32_BITS) &&
    decide (r.PriorityThreshold c < r.InterruptPriority s)

/-- Modelled from the spec: the arbitration result — among eligible sources,
the one with the highest priority, ties broken by the lowest source id
(scanning ids in ascending order and replacing the best candidate only on a
strictly greater priority).  `claimStep` is one step of the ascending scan,
`pickBest` the whole scan over source ids `0 .. SOURCE_NUM - 1`. -/
def claimStep (r : PLICRegs) (c : Nat) (best : Option Nat) (s : Nat) :
    Option Nat :=
  if eligible r c s then
    match best with
    | none => some s
    | some b =>
      if r.InterruptPriority b < r.InterruptPriority s then some s
      else some b
  else best

/-- Modelled from the spec: the arbitration winner for context `c`. -/
def pickBest (r : PLICRegs) (c : Nat) : Option Nat :=
  (List.range SOURCE_NUM).foldl (claimStep r c) none

/-- Modelled from the spec: clear the pending bit of source `s`
(`word & !(1 << bit)` on the pending word of the source's group). -/
def clearPending (r : PLICRegs) (s : Nat) : PLICRegs :=
  { r with InterruptPending := fun g =>
      if g = s / U32_BITS then
        r.InterruptPending g &&& (U32_MASK ^^^ (1 <<< (s % U32_BITS)))
      else r.InterruptPending g }

/-- Modelled from the spec: a read of the claim/complete register of
context `c`.  It returns the arbitration winner's id (or 0 when no source
is eligible) and, as a side effect of the read, clears the winner's pending
bit and records it as the outstanding claim token of `c`. -/
def hwClaimRead (h : HwState) (c : Nat) : Nat × HwState :=
  match pickBest h.regs c with
  | none => (0, h)
  | some s =>
    (s, { regs := clearPending h.regs s,
          claimed := fun c2 => if c2 = c then some s else h.claimed c2 })

/-- Value the claim/complete register of context `c` reads in state `h`. -/
def claimReadValue (h : HwState) (c : Nat) : Nat := (hwClaimRead h c).1

/-- Modelled from the spec: a write of value `v` to the claim/complete
register of context `c` — the completion signal.  When `v` matches the
outstanding claim token of `c`, the token is retired; the pending bits are
not touched.  A mismatched `v` has hardware-defined consequences; here it
leaves the state unchanged. -/
def hwCompleteWrite (h : HwState) (c v : Nat) : HwState :=
  { h with claimed := fun c2 =>
      if c2 = c then (if h.claimed c = some v then none else h.claimed c2)
      else h.claimed c2 }

/-- Embeds `NonZeroU32::new(v)` from the Rust core library: `none` iff `v = 0`. -/
def nonZeroU32New (v : Nat) : Option Nat :=
  if v = 0 then none else some v

namespace Plic

/-- Embeds `Plic::claim` from `src/lib.rs`:
`NonZeroU32::new(self.regs().Contexts[context.index()].InterruptClaimComplete.get())`;
the array indexing panics when `context ≥ CONTEXT_NUM`, and the register
read is `hwClaimRead`. -/
def claim (h : HwState) (context : Nat) : Option (Option Nat × HwState) :=
  if context < CONTEXT_NUM then
    let vh := hwClaimRead h context
    some (nonZeroU32New vh.1, vh.2)
  else none

/-- Embeds `Plic::complete` from `src/lib.rs`:
`self.regs().Contexts[context.index()].InterruptClaimComplete.set(source.id().get())`;
the array indexing panics when `context ≥ CONTEXT_NUM`.  The source id is
not validated in any way — it is written to the register as is. -/
def complete (h : HwState) (context source : Nat) : Option HwState :=
  if context < CONTEXT_NUM then some (hwCompleteWrite h context source)
  else none

end Plic

/-! ## Context resolution (`src/hart.rs`) -/

/-- Embeds `enum Mode` from `src/hart.rs`. -/
inductive Mode where
  | Machine
  | Supervisor
deriving DecidableEq

/-- The discriminant of `Mode` (`Machine = 0`, `Supervisor = 1`), the value
of `mode as u8` / `mode as usize`. -/
def Mode.ord : Mode → Nat
  | .Machine => 0
  | .Supervisor => 1

/-- Embeds `struct SimpleContext` from `src/hart.rs`; the `&[u8]` privileges slice
is a list of `u8` values. -/
structure SimpleContext where
  privileges : List Nat
  hart_id : Nat
  mode : Mode

/-- Embeds `<u8 as Sum>::sum` over a list: left fold of wrapping `u8` addition
(the release-profile semantics of `sum::<u8>()`; with overflow checks the
overflowing addition aborts instead — either way an overflowing sum does
not produce the mathematical sum). -/
def u8Sum (l : List Nat) : Nat :=
  l.foldl (fun a b => (a + b) % 256) 0

/-- Embeds `SimpleContext::index` from `src/hart.rs`:
`assert!(self.mode as u8 <= self.privileges[self.hart_id])` — the slice
indexing panics when `hart_id` is out of bounds and the assertion panics
when the mode ordinal exceeds the entry — then
`self.privileges.iter().take(self.hart_id).sum::<u8>() as usize + self.mode as usize`. -/
def SimpleContext.index (sc : SimpleContext) : Option Nat :=
  if sc.hart_id < sc.privileges.length then
    if sc.mode.ord ≤ sc.privileges.getD sc.hart_id 0 then
      some (u8Sum (sc.privileges.take sc.hart_id) + sc.mode.ord)
    else none
  else none

/-! ## Concrete states used as witnesses -/

/-- Register file with every word zero. -/
def zeroRegs : PLICRegs :=
  { InterruptPriority := fun _ => 0
    InterruptPending := fun _ => 0
    InterruptEnable := fun _ _ => 0
    PriorityThreshold := fun _ => 0 }

/-- Hardware state with all words zero and no outstanding claim. -/
def zeroHw : HwState := { regs := zeroRegs, claimed := fun _ => none }

/-- Demonstration state: source 5 pending, enabled for context 0 with
priority 7, all thresholds 0. -/
def demoRegs : PLICRegs :=
  { InterruptPriority := fun s => if s = 5 then 7 else 0
    InterruptPending := fun g => if g = 0 then 32 else 0
    InterruptEnable := fun c g => if c = 0 ∧ g = 0 then 32 else 0
    PriorityThreshold := fun _ => 0 }

/-- Demonstration hardware state before any claim. -/
def demoHw : HwState := { regs := demoRegs, claimed := fun _ => none }

/-- The state after context 0 claims in `demoHw`. -/
def demoHw1 : HwState := ((Plic.claim demoHw 0).getD (none, demoHw)).2

/-- The state after context 0 completes source 5 in `demoHw1`. -/
def demoHw2 : HwState := (Plic.complete demoHw1 0 5).getD demoHw1

/-! ## Bit-level helper lemmas -/

theorem U32_MASK_eq : U32_MASK = 2 ^ 32 - 1 := by norm_num [U32_MASK]

theorem U32_MASK_testBit (j : Nat) : U32_MASK.testBit j = decide (j < 32) := by
  rw [U32_MASK_eq, Nat.testBit_two_pow_sub_one]

theorem bitGet_eq_testBit (x i : Nat) : bitGet x i = x.testBit i := by
  simp only [bitGet, Nat.one_shiftLeft, Nat.and_two_pow]
  cases h : x.testBit i
  · simp
  · simp [(Nat.two_pow_pos i).ne']

theorem bitGet_set_self (x i : Nat) : bitGet (x ||| (1 <<< i)) i = true := by
  rw [bitGet_eq_testBit]
  simp [Nat.one_shiftLeft, Nat.testBit_two_pow_self]

theorem bitGet_set_ne (x i j : Nat) (h : j ≠ i) :
    bitGet (x ||| (1 <<< i)) j = bitGet x j := by
  rw [bitGet_eq_testBit, bitGet_eq_testBit]
  simp [Nat.one_shiftLeft, Nat.testBit_two_pow_of_ne (fun hh => h hh.symm)]

theorem bitGet_clear_self (x i : Nat) (hi : i < 32) :
    bitGet (x &&& (U32_MASK ^^^ (1 <<< i))) i = false := by
  rw [bitGet_eq_testBit]
  simp [Nat.one_shiftLeft, U32_MASK_testBit, Nat.testBit_two_pow_self, hi]

theorem bitGet_clear_ne (x i j : Nat) (hj : j < 32) (h : j ≠ i) :
    bitGet (x &&& (U32_MASK ^^^ (1 <<< i))) j = bitGet x j := by
  rw [bitGet_eq_testBit, bitGet_eq_testBit]
  simp [Nat.one_shiftLeft, U32_MASK_testBit,
    Nat.testBit_two_pow_of_ne (fun hh => h hh.symm), hj]

/-! ## Read lemmas for the driver operations -/

theorem is_enabled_in_range (r : PLICRegs) (s c : Nat)
    (hc : c < CONTEXT_NUM) (hg : s / U32_BITS < SOURCE_NUM / U32_BITS) :
    Plic.is_enabled r s c =
      some (bitGet (r.InterruptEnable c (s / U32_BITS)) (s % U32_BITS)) := by
  simp [Plic.is_enabled, parse_group_and_index, hc, hg]

theorem is_enabled_out_range (r : PLICRegs) (s c : Nat)
    (h : ¬(c < CONTEXT_NUM ∧ s / U32_BITS < SOURCE_NUM / U32_BITS)) :
    Plic.is_enabled r s c = none := by
  simp only [Plic.is_enabled, parse_group_and_index]
  exact if_neg h

theorem enableCore_read_self (r : PLICRegs) (s c : Nat) :
    (Plic.enableCore r s c).InterruptEnable c (s / U32_BITS) =
      r.InterruptEnable c (s / U32_BITS) ||| (1 <<< (s % U32_BITS)) := by
  simp [Plic.enableCore, parse_group_and_index]

theorem disableCore_read_self (r : PLICRegs) (s c : Nat) :
    (Plic.disableCore r s c).InterruptEnable c (s / U32_BITS) =
      r.InterruptEnable c (s / U32_BITS) &&&
        (U32_MASK ^^^ (1 <<< (s % U32_BITS))) := by
  simp [Plic.disableCore, parse_group_and_index]

theorem enableCore_read_other (r : PLICRegs) (s c c2 g2 : Nat)
    (h : ¬(c2 = c ∧ g2 = s / U32_BITS)) :
    (Plic.enableCore r s c).InterruptEnable c2 g2 =
      r.InterruptEnable c2 g2 := by
  simp only [Plic.enableCore, parse_group_and_index]
  by_cases hc : c2 = c
  · subst hc
    have hg : ¬g2 = s / U32_BITS := fun hg => h ⟨rfl, hg⟩
    simp [hg]
  · simp [hc]

theorem disableCore_read_other (r : PLICRegs) (s c c2 g2 : Nat)
    (h : ¬(c2 = c ∧ g2 = s / U32_BITS)) :
    (Plic.disableCore r s c).InterruptEnable c2 g2 =
      r.InterruptEnable c2 g2 := by
  simp only [Plic.disableCore, parse_group_and_index]
  by_cases hc : c2 = c
  · subst hc
    have hg : ¬g2 = s / U32_BITS := fun hg => h ⟨rfl, hg⟩
    simp [hg]
  · simp [hc]

/-- A source id is recovered from its group/bit decomposition. -/
theorem source_eq_of_group_bit (s s2 : Nat)
    (hg : s2 / U32_BITS = s / U32_BITS) (hb : s2 % U32_BITS = s % U32_BITS) :
    s2 = s := by
  simp only [U32_BITS] at hg hb
  omega

/-! ## Arbitration lemmas -/

/-- Whatever `claimStep` keeps as the best candidate is eligible, provided
the incoming candidate was. -/
theorem claimStep_eligible (r : PLICRegs) (c : Nat) (acc : Option Nat)
    (s b : Nat) (hacc : ∀ b2, acc = some b2 → eligible r c b2 = true)
    (h : claimStep r c acc s = some b) : eligible r c b = true := by
  cases acc with
  | none =>
    unfold claimStep at h
    by_cases he : eligible r c s
    · rw [if_pos he] at h
      dsimp only at h
      cases h
      exact he
    · rw [if_neg he] at h
      cases h
  | some b0 =>
    unfold claimStep at h
    by_cases he : eligible r c s
    · rw [if_pos he] at h
      dsimp only at h
      by_cases hlt : r.InterruptPriority b0 < r.InterruptPriority s
      · rw [if_pos hlt] at h
        cases h
        exact he
      · rw [if_neg hlt] at h
        cases h
        exact hacc _ rfl
    · rw [if_neg he] at h
      cases h
      exact hacc _ rfl

/-- The fold of `claimStep` only ever produces an eligible source. -/
theorem foldl_claimStep_eligible (r : PLICRegs) (c : Nat) (l : List Nat) :
    ∀ acc : Option Nat, (∀ b2, acc = some b2 → eligible r c b2 = true) →
      ∀ b, l.foldl (claimStep r c) acc = some b → eligible r c b = true := by
  induction l with
  | nil => exact fun acc hacc b h => hacc b h
  | cons x xs ih =>
    intro acc hacc b h
    exact ih (claimStep r c acc x)
      (fun b2 h2 => claimStep_eligible r c acc x b2 hacc h2) b h

/-- The arbitration winner is always an eligible source. -/
theorem pickBest_eligible (r : PLICRegs) (c b : Nat)
    (h : pickBest r c = some b) : eligible r c b = true :=
  foldl_claimStep_eligible r c (List.range SOURCE_NUM) none
    (fun _ h2 => by cases h2) b h

/-- Eligible sources are nonzero. -/
theorem eligible_one_le (r : PLICRegs) (c s : Nat)
    (h : eligible r c s = true) : 1 ≤ s := by
  unfold eligible at h
  simp only [Bool.and_eq_true, decide_eq_true_eq] at h
  exact h.1.1.1.1

/-- Eligible sources have their pending bit set. -/
theorem eligible_pending (r : PLICRegs) (c s : Nat)
    (h : eligible r c s = true) :
    bitGet (r.InterruptPending (s / U32_BITS)) (s % U32_BITS) = true := by
  unfold eligible at h
  simp only [Bool.and_eq_true, decide_eq_true_eq] at h
  exact h.1.1.2

/-- After `clearPending s`, the pending bit of `s` reads `false`. -/
theorem clearPending_self (r : PLICRegs) (s : Nat) :
    bitGet ((clearPending r s).InterruptPending (s / U32_BITS))
      (s % U32_BITS) = false := by
  have hb : s % U32_BITS < 32 := by simp only [U32_BITS]; omega
  simp only [clearPending, if_pos rfl]
  exact bitGet_clear_self _ _ hb

/-! ## Claims C2 and C3 -/

/-- Claim C2: `claim(c)` returns the empty result exactly when the
claim/complete register of `c` reads 0, returns the read value `s` when it
is nonzero, and never returns the reserved source id 0. -/
theorem C2_claim_empty_iff_zero (h : HwState) (c : Nat)
    (hc : c < CONTEXT_NUM) :
    (claimReadValue h c = 0 →
      Plic.claim h c = some (none, (hwClaimRead h c).2)) ∧
    (claimReadValue h c ≠ 0 →
      Plic.claim h c =
        some (some (claimReadValue h c), (hwClaimRead h c).2)) ∧
    (Plic.claim h c).elim True (fun p => p.1 ≠ some 0) := by
  refine ⟨?_, ?_, ?_⟩
  · intro h0
    simp only [Plic.claim, if_pos hc, nonZeroU32New]
    rw [show (hwClaimRead h c).1 = 0 from h0]
    simp
  · intro h0
    have h0' : (hwClaimRead h c).1 ≠ 0 := h0
    simp only [Plic.claim, if_pos hc, nonZeroU32New, claimReadValue]
    rw [if_neg h0']
  · simp only [Plic.claim, if_pos hc, Option.elim_some, nonZeroU32New]
    by_cases h0 : (hwClaimRead h c).1 = 0
    · rw [if_pos h0]
      exact fun hcon => Option.noConfusion hcon
    · rw [if_neg h0]
      intro hcon
      exact h0 (Option.some.inj hcon)

set_option maxRecDepth 4096

/-- The second component of a successful `claim` that returned source `s`
has the pending bit of `s` cleared, and `s` was the arbitration winner. -/
theorem claim_some_inv (h : HwState) (c s : Nat) (h1 : HwState)
    (hclaim : Plic.claim h c = some (some s, h1)) :
    pickBest h.regs c = some s ∧ h1.regs = clearPending h.regs s := by
  unfold Plic.claim at hclaim
  by_cases hc : c < CONTEXT_NUM
  · rw [if_pos hc] at hclaim
    unfold hwClaimRead at hclaim
    cases hpick : pickBest h.regs c with
    | none =>
      rw [hpick] at hclaim
      dsimp only at hclaim
      simp [nonZeroU32New] at hclaim
    | some b =>
      rw [hpick] at hclaim
      dsimp only at hclaim
      have hb1 : 1 ≤ b :=
        eligible_one_le _ _ _ (pickBest_eligible _ _ _ hpick)
      simp only [nonZeroU32New, Option.some.injEq, Prod.mk.injEq] at hclaim
      rw [if_neg (show ¬b = 0 by omega)] at hclaim
      obtain ⟨hleft, hright⟩ := hclaim
      have hbs : b = s := Option.some.inj hleft
      subst hbs
      exact ⟨rfl, congrArg HwState.regs hright.symm⟩
  · rw [if_neg hc] at hclaim
    cases hclaim

/-- Claim C3: the claim/complete round trip.  If `claim(c)` returns source
`s` (the arbitration winner, whose pending bit the claim read clears) and
the caller then runs `complete(c, s)`, the pending bit of `s` is still
clear (complete does not touch pending), so a subsequent `claim(c)` cannot
return `s` again — only a hardware re-assertion of the pending bit could
make `s` claimable once more. -/
theorem C3_claim_complete_round_trip (h : HwState) (c s : Nat)
    (h1 h2 : HwState)
    (hclaim : Plic.claim h c = some (some s, h1))
    (hcomp : Plic.complete h1 c s = some h2) :
    eligible h.regs c s = true ∧
    bitGet (h1.regs.InterruptPending (s / U32_BITS)) (s % U32_BITS)
      = false ∧
    h2.regs = h1.regs ∧
    (Plic.claim h2 c).map Prod.fst ≠ some (some s) := by
  obtain ⟨hpick, hregs⟩ := claim_some_inv h c s h1 hclaim
  have helig : eligible h.regs c s = true := pickBest_eligible _ _ _ hpick
  have hc : c < CONTEXT_NUM := by
    by_contra hcon
    unfold Plic.complete at hcomp
    rw [if_neg hcon] at hcomp
    cases hcomp
  have hregs2 : h2.regs = h1.regs := by
    unfold Plic.complete at hcomp
    rw [if_pos hc] at hcomp
    cases hcomp
    rfl
  have hclear : bitGet (h1.regs.InterruptPending (s / U32_BITS))
      (s % U32_BITS) = false := by
    rw [hregs]
    exact clearPending_self h.regs s
  refine ⟨helig, hclear, hregs2, ?_⟩
  intro hcon
  unfold Plic.claim at hcon
  rw [if_pos hc] at hcon
  unfold hwClaimRead at hcon
  cases hpick2 : pickBest h2.regs c with
  | none =>
    rw [hpick2] at hcon
    dsimp only at hcon
    simp [nonZeroU32New] at hcon
  | some b =>
    rw [hpick2] at hcon
    dsimp only at hcon
    have helig2 : eligible h2.regs c b = true :=
      pickBest_eligible _ _ _ hpick2
    have hb1 : 1 ≤ b := eligible_one_le _ _ _ helig2
    simp only [Option.map_some', nonZeroU32New] at hcon
    rw [if_neg (show ¬b = 0 by omega)] at hcon
    have hbs : b = s := Option.some.inj (Option.some.inj hcon)
    subst hbs
    have hpend := eligible_pending _ _ _ helig2
    rw [hregs2, hclear] at hpend
    cases hpend

/-! ## Claims C4–C7 -/

/-- Claim C4: the group/bit decomposition used by `is_pending`, `enable`,
`disable` and `is_enabled` is `group = s / 32`, `bit = s % 32`, identically
for the pending bitmap and every context's enable bitmap; source 0 maps to
(0, 0), source 33 to (1, 1), source 1023 to (31, 31). -/
theorem C4_group_bit (r : PLICRegs) (s c : Nat)
    (hs : s < SOURCE_NUM) (hc : c < CONTEXT_NUM) :
    parse_group_and_index s = (s / 32, s % 32) ∧
    parse_group_and_index 0 = (0, 0) ∧
    parse_group_and_index 33 = (1, 1) ∧
    parse_group_and_index 1023 = (31, 31) ∧
    Plic.is_pending r s =
      some ((r.InterruptPending (s / 32)).testBit (s % 32)) ∧
    Plic.is_enabled r s c =
      some ((r.InterruptEnable c (s / 32)).testBit (s % 32)) ∧
    (Plic.enableCore r s c).InterruptEnable c (s / 32) =
      r.InterruptEnable c (s / 32) ||| (1 <<< (s % 32)) ∧
    (Plic.disableCore r s c).InterruptEnable c (s / 32) =
      r.InterruptEnable c (s / 32) &&& (U32_MASK ^^^ (1 <<< (s % 32))) := by
  have hs2 : s < 1024 := by simpa [SOURCE_NUM] using hs
  have hgp : s / 32 < PLICRegs.InterruptPending_len := by
    simp only [PLICRegs.InterruptPending_len]; omega
  have hge : s / U32_BITS < SOURCE_NUM / U32_BITS := by
    simp only [U32_BITS, SOURCE_NUM]; omega
  refine ⟨rfl, by decide, by decide, by decide, ?_, ?_, ?_, ?_⟩
  · simp [Plic.is_pending, parse_group_and_index, hgp, bitGet_eq_testBit,
      U32_BITS]
  · rw [is_enabled_in_range r s c hc hge, bitGet_eq_testBit]
    simp [U32_BITS]
  · have := enableCore_read_self r s c
    simpa [U32_BITS] using this
  · have := disableCore_read_self r s c
    simpa [U32_BITS] using this

/-- Claim C5: for any source in `[1, 1023]` and context in `[0, 15871]`,
`enable` succeeds and makes `is_enabled` read `true`, and a subsequent
`disable` succeeds and makes `is_enabled` read `false`. -/
theorem C5_enable_disable_round (r : PLICRegs) (s c : Nat)
    (hs1 : 1 ≤ s) (hs : s ≤ 1023) (hc : c ≤ 15871) :
    Plic.enable r s c = some (Plic.enableCore r s c) ∧
    Plic.is_enabled (Plic.enableCore r s c) s c = some true ∧
    Plic.disable (Plic.enableCore r s c) s c =
      some (Plic.disableCore (Plic.enableCore r s c) s c) ∧
    Plic.is_enabled (Plic.disableCore (Plic.enableCore r s c) s c) s c =
      some false := by
  have hc2 : c < CONTEXT_NUM := by simp only [CONTEXT_NUM]; omega
  have hge : s / U32_BITS < SOURCE_NUM / U32_BITS := by
    simp only [U32_BITS, SOURCE_NUM]; omega
  have hb : s % U32_BITS < 32 := by simp only [U32_BITS]; omega
  refine ⟨?_, ?_, ?_, ?_⟩
  · simp [Plic.enable, parse_group_and_index, hc2, hge]
  · rw [is_enabled_in_range _ s c hc2 hge, enableCore_read_self,
      bitGet_set_self]
  · simp [Plic.disable, parse_group_and_index, hc2, hge]
  · rw [is_enabled_in_range _ s c hc2 hge, disableCore_read_self,
      bitGet_clear_self _ _ hb]

/-- Claim C6: `enable(s, c)` and `disable(s, c)` leave the enable bit of
every other pair `(s2, c2)` unchanged as observed by `is_enabled`, and do
not touch the priority, pending and threshold registers. -/
theorem C6_frame (r : PLICRegs) (s c s2 c2 : Nat)
    (hne : s2 ≠ s ∨ c2 ≠ c) :
    (Plic.enable r s c).elim True (fun r1 =>
      Plic.is_enabled r1 s2 c2 = Plic.is_enabled r s2 c2 ∧
      r1.InterruptPriority = r.InterruptPriority ∧
      r1.InterruptPending = r.InterruptPending ∧
      r1.PriorityThreshold = r.PriorityThreshold) ∧
    (Plic.disable r s c).elim True (fun r1 =>
      Plic.is_enabled r1 s2 c2 = Plic.is_enabled r s2 c2 ∧
      r1.InterruptPriority = r.InterruptPriority ∧
      r1.InterruptPending = r.InterruptPending ∧
      r1.PriorityThreshold = r.PriorityThreshold) := by
  have frame_en : Plic.is_enabled (Plic.enableCore r s c) s2 c2 =
      Plic.is_enabled r s2 c2 := by
    by_cases hr : c2 < CONTEXT_NUM ∧ s2 / U32_BITS < SOURCE_NUM / U32_BITS
    · rw [is_enabled_in_range _ s2 c2 hr.1 hr.2,
        is_enabled_in_range _ s2 c2 hr.1 hr.2]
      by_cases hcg : c2 = c ∧ s2 / U32_BITS = s / U32_BITS
      · obtain ⟨hcc, hgg⟩ := hcg
        subst hcc
        have hbb : s2 % U32_BITS ≠ s % U32_BITS := by
          intro hb
          rcases hne with h | h
          · exact h (source_eq_of_group_bit s s2 hgg hb)
          · exact h rfl
        rw [hgg, enableCore_read_self, bitGet_set_ne _ _ _ hbb]
      · rw [enableCore_read_other r s c c2 _ hcg]
    · rw [is_enabled_out_range _ s2 c2 hr, is_enabled_out_range _ s2 c2 hr]
  have frame_dis : Plic.is_enabled (Plic.disableCore r s c) s2 c2 =
      Plic.is_enabled r s2 c2 := by
    by_cases hr : c2 < CONTEXT_NUM ∧ s2 / U32_BITS < SOURCE_NUM / U32_BITS
    · rw [is_enabled_in_range _ s2 c2 hr.1 hr.2,
        is_enabled_in_range _ s2 c2 hr.1 hr.2]
      by_cases hcg : c2 = c ∧ s2 / U32_BITS = s / U32_BITS
      · obtain ⟨hcc, hgg⟩ := hcg
        subst hcc
        have hbb : s2 % U32_BITS ≠ s % U32_BITS := by
          intro hb
          rcases hne with h | h
          · exact h (source_eq_of_group_bit s s2 hgg hb)
          · exact h rfl
        have hjb : s2 % U32_BITS < 32 := by
          simp only [U32_BITS]; omega
        rw [hgg, disableCore_read_self, bitGet_clear_ne _ _ _ hjb hbb]
      · rw [disableCore_read_other r s c c2 _ hcg]
    · rw [is_enabled_out_range _ s2 c2 hr, is_enabled_out_range _ s2 c2 hr]
  constructor
  · by_cases hg : c < CONTEXT_NUM ∧
        (parse_group_and_index s).1 < SOURCE_NUM / U32_BITS
    · simp only [Plic.enable, if_pos hg, Option.elim_some]
      exact ⟨frame_en, rfl, rfl, rfl⟩
    · simp [Plic.enable, if_neg hg]
  · by_cases hg : c < CONTEXT_NUM ∧
        (parse_group_and_index s).1 < SOURCE_NUM / U32_BITS
    · simp only [Plic.disable, if_pos hg, Option.elim_some]
      exact ⟨frame_dis, rfl, rfl, rfl⟩
    · simp [Plic.disable, if_neg hg]

/-- Claim C7: `init_by_context(c)` writes 0 into the threshold register of
`c` and modifies nothing else: no priority, pending or enable register, and
no threshold of any other context. -/
theorem C7_init (r : PLICRegs) (c c2 : Nat)
    (hc : c ≤ 15871) (hne : c2 ≠ c) :
    Plic.init_by_context r c = some (Plic.initCore r c) ∧
    (Plic.initCore r c).PriorityThreshold c = 0 ∧
    (Plic.initCore r c).PriorityThreshold c2 = r.PriorityThreshold c2 ∧
    (Plic.initCore r c).InterruptPriority = r.InterruptPriority ∧
    (Plic.initCore r c).InterruptPending = r.InterruptPending ∧
    (Plic.initCore r c).InterruptEnable = r.InterruptEnable := by
  have hc2 : c < CONTEXT_NUM := by simp only [CONTEXT_NUM]; omega
  refine ⟨by simp [Plic.init_by_context, hc2], by simp [Plic.initCore],
    by simp [Plic.initCore, hne], rfl, rfl, rfl⟩

/-! ## Claims C8 and C10: context resolution -/

/-- Wrapping `u8` summation agrees with the mathematical sum as long as the
sum fits in a byte. -/
theorem foldl_wrap_add_eq (l : List Nat) (a : Nat) (h : a + l.sum ≤ 255) :
    l.foldl (fun x y => (x + y) % 256) a = a + l.sum := by
  induction l generalizing a with
  | nil => simp
  | cons x xs ih =>
    simp only [List.foldl_cons, List.sum_cons] at h ⊢
    have hx : (a + x) % 256 = a + x := Nat.mod_eq_of_lt (by omega)
    rw [hx, ih (a + x) (by omega)]
    omega

theorem u8Sum_eq_sum (l : List Nat) (h : l.sum ≤ 255) : u8Sum l = l.sum := by
  simpa using foldl_wrap_add_eq l 0 (by omega)

/-- Claim C8, corrected: when the hart id is in bounds, the mode ordinal
does not exceed the hart's privilege count, and the sum of the privilege
counts of the preceding harts fits in a `u8` (is at most 255),
`SimpleContext::index` returns that sum plus the mode ordinal; the
validation succeeds exactly when the hart id is in bounds and the mode
ordinal does not exceed the hart's entry.  (Without the `≤ 255` bound the
`u8` accumulator of `sum::<u8>()` wraps modulo 256 — see the
counterexample — so the claim as frozen does not hold for every slice.) -/
theorem C8_index_amended (p : List Nat) (h : Nat) (m : Mode)
    (hh : h < p.length) (hm : m.ord ≤ p.getD h 0)
    (hs : (p.take h).sum ≤ 255) :
    SimpleContext.index ⟨p, h, m⟩ = some ((p.take h).sum + m.ord) ∧
    (∀ p2 h2 m2, (SimpleContext.index ⟨p2, h2, m2⟩).isSome = true ↔
      h2 < p2.length ∧ Mode.ord m2 ≤ p2.getD h2 0) := by
  constructor
  · simp only [SimpleContext.index]
    rw [if_pos hh, if_pos hm, u8Sum_eq_sum _ hs]
  · intro p2 h2 m2
    by_cases hh2 : h2 < p2.length
    · by_cases hm2 : Mode.ord m2 ≤ p2.getD h2 0
      · simp [SimpleContext.index, hh2, hm2]
      · simp [SimpleContext.index, hh2, hm2]
    · simp [SimpleContext.index, hh2]

/-- Counterexample to claim C8 as frozen: for the privileges slice
`[200, 200, 0]`, hart 2, machine mode, the precondition holds (hart id in
bounds, mode ordinal `0 ≤ 0`), yet `index()` computes the preceding-hart
sum in a `u8`, so `200 + 200 = 400` wraps to `144` — not the sum `400`
the claim promises. -/
theorem C8_index_cex :
    (2 < ([200, 200, 0] : List Nat).length ∧
      Mode.ord Mode.Machine ≤ ([200, 200, 0] : List Nat).getD 2 0) ∧
    SimpleContext.index ⟨[200, 200, 0], 2, Mode.Machine⟩ = some 144 ∧
    (([200, 200, 0] : List Nat).take 2).sum + Mode.ord Mode.Machine
      = 400 ∧
    SimpleContext.index ⟨[200, 200, 0], 2, Mode.Machine⟩ ≠
      some ((([200, 200, 0] : List Nat).take 2).sum +
        Mode.ord Mode.Machine) := by
  refine ⟨by decide, by decide, by decide, by decide⟩

/-- Claim C10: when the hart id is at least the length of the privileges
slice, `SimpleContext::index` panics at the slice indexing inside the
validation instead of returning an index. -/
theorem C10_index_out_of_bounds (p : List Nat) (h : Nat) (m : Mode)
    (hge : p.length ≤ h) :
    SimpleContext.index ⟨p, h, m⟩ = none := by
  simp only [SimpleContext.index]
  rw [if_neg (by omega)]

/-! ## Claim C9: surfacing of caller-contract violations -/

/-- Claim C9, corrected: a null base address passed to `new`, a context
index out of range passed to any context-taking operation, and a source id
`≥ 1024` passed to the operations that index a register array by source
(`set_priority`, `get_priority`, `probe_priority_bits`, `is_pending`,
`enable`, `disable`, `is_enabled`) all abort via `unwrap` or bounds
checks (so no register access at an out-of-layout offset happens); a source
id 0 is unrepresentable (`NonZeroU32`); but `complete` validates nothing
about its source argument: completing a source that is not currently
claimed — or any id at all, in or out of range — is a plain register write
that succeeds silently. -/
theorem C9_contract_violations (r : PLICRegs) (h : HwState)
    (cBad cOk sBad s v : Nat)
    (hcb : CONTEXT_NUM ≤ cBad) (hco : cOk < CONTEXT_NUM)
    (hsb : SOURCE_NUM ≤ sBad) :
    Plic.new 0 = none ∧
    Plic.init_by_context r cBad = none ∧
    Plic.set_threshold r cBad v = none ∧
    Plic.get_threshold r cBad = none ∧
    Plic.probe_threshold_bits r cBad = none ∧
    Plic.claim h cBad = none ∧
    Plic.complete h cBad s = none ∧
    Plic.enable r s cBad = none ∧
    Plic.disable r s cBad = none ∧
    Plic.is_enabled r s cBad = none ∧
    Plic.set_priority r sBad v = none ∧
    Plic.get_priority r sBad = none ∧
    Plic.probe_priority_bits r sBad = none ∧
    Plic.is_pending r sBad = none ∧
    Plic.enable r sBad cOk = none ∧
    Plic.disable r sBad cOk = none ∧
    Plic.is_enabled r sBad cOk = none ∧
    (Plic.complete h cOk s).isSome = true := by
  have h1 : ¬cBad < CONTEXT_NUM := by omega
  have h2 : ¬sBad < SOURCE_NUM := by omega
  have hgb : ¬(parse_group_and_index sBad).1 < SOURCE_NUM / U32_BITS := by
    simp only [parse_group_and_index, SOURCE_NUM, U32_BITS] at h2 ⊢
    omega
  have hgp : ¬(parse_group_and_index sBad).1 <
      PLICRegs.InterruptPending_len := by
    simp only [parse_group_and_index, SOURCE_NUM,
      PLICRegs.InterruptPending_len, U32_BITS] at h2 ⊢
    omega
  have hcb2 : ∀ q : Prop, ¬(cBad < CONTEXT_NUM ∧ q) := fun _ hc => h1 hc.1
  have hsb2 : ¬(cOk < CONTEXT_NUM ∧
      (parse_group_and_index sBad).1 < SOURCE_NUM / U32_BITS) :=
    fun hc => hgb hc.2
  refine ⟨rfl, ?_, ?_, ?_, ?_, ?_, ?_, ?_, ?_, ?_, ?_, ?_, ?_, ?_, ?_, ?_,
    ?_, ?_⟩
  · simp only [Plic.init_by_context]
    rw [if_neg h1]
  · simp only [Plic.set_threshold]
    rw [if_neg h1]
  · simp only [Plic.get_threshold]
    rw [if_neg h1]
  · simp only [Plic.probe_threshold_bits]
    rw [if_neg h1]
  · simp only [Plic.claim]
    rw [if_neg h1]
  · simp only [Plic.complete]
    rw [if_neg h1]
  · simp only [Plic.enable]
    rw [if_neg (hcb2 _)]
  · simp only [Plic.disable]
    rw [if_neg (hcb2 _)]
  · simp only [Plic.is_enabled]
    rw [if_neg (hcb2 _)]
  · simp only [Plic.set_priority]
    rw [if_neg h2]
  · simp only [Plic.get_priority]
    rw [if_neg h2]
  · simp only [Plic.probe_priority_bits]
    rw [if_neg h2]
  · simp only [Plic.is_pending]
    rw [if_neg hgp]
  · simp only [Plic.enable]
    rw [if_neg hsb2]
  · simp only [Plic.disable]
    rw [if_neg hsb2]
  · simp only [Plic.is_enabled]
    rw [if_neg hsb2]
  · simp only [Plic.complete]
    rw [if_pos hco]
    rfl

/-- Counterexample to claim C9 as frozen: in a state with no outstanding
claim for context 0, completing source 5 — a source not currently claimed
by that context — is not surfaced by any abort or assertion: the write
succeeds; so does completing the out-of-range source id 5000. -/
theorem C9_complete_unchecked_cex :
    zeroHw.claimed 0 = none ∧
    (Plic.complete zeroHw 0 5).isSome = true ∧
    (Plic.complete zeroHw 0 5000).isSome = true := by
  refine ⟨rfl, ?_, ?_⟩ <;>
  · simp [Plic.complete, CONTEXT_NUM]

/-! ## Witnesses -/

/-- Witness for C2 at the all-zero state: the register reads 0 and `claim`
returns the empty result. -/
theorem C2_witness :
    Plic.claim zeroHw 0 = some (none, (hwClaimRead zeroHw 0).2) :=
  (C2_claim_empty_iff_zero zeroHw 0 (by decide)).1 (by decide)

/-- Witness for C3: in `demoHw`, context 0 claims source 5, completes it,
and the next claim does not deliver source 5 again. -/
theorem C3_witness :
    eligible demoHw.regs 0 5 = true ∧
    bitGet (demoHw1.regs.InterruptPending (5 / U32_BITS)) (5 % U32_BITS)
      = false ∧
    demoHw2.regs = demoHw1.regs ∧
    (Plic.claim demoHw2 0).map Prod.fst ≠ some (some 5) :=
  C3_claim_complete_round_trip demoHw 0 5 demoHw1 demoHw2 rfl rfl

/-- Witness for C4 at source 33, context 0. -/
theorem C4_witness :
    parse_group_and_index 33 = (33 / 32, 33 % 32) ∧
    parse_group_and_index 0 = (0, 0) ∧
    parse_group_and_index 33 = (1, 1) ∧
    parse_group_and_index 1023 = (31, 31) ∧
    Plic.is_pending zeroRegs 33 =
      some ((zeroRegs.InterruptPending (33 / 32)).testBit (33 % 32)) ∧
    Plic.is_enabled zeroRegs 33 0 =
      some ((zeroRegs.InterruptEnable 0 (33 / 32)).testBit (33 % 32)) ∧
    (Plic.enableCore zeroRegs 33 0).InterruptEnable 0 (33 / 32) =
      zeroRegs.InterruptEnable 0 (33 / 32) ||| (1 <<< (33 % 32)) ∧
    (Plic.disableCore zeroRegs 33 0).InterruptEnable 0 (33 / 32) =
      zeroRegs.InterruptEnable 0 (33 / 32) &&&
        (U32_MASK ^^^ (1 <<< (33 % 32))) :=
  C4_group_bit zeroRegs 33 0 (by decide) (by decide)

/-- Witness for C5 at source 1, context 0, all-zero start state. -/
theorem C5_witness :
    Plic.enable zeroRegs 1 0 = some (Plic.enableCore zeroRegs 1 0) ∧
    Plic.is_enabled (Plic.enableCore zeroRegs 1 0) 1 0 = some true ∧
    Plic.disable (Plic.enableCore zeroRegs 1 0) 1 0 =
      some (Plic.disableCore (Plic.enableCore zeroRegs 1 0) 1 0) ∧
    Plic.is_enabled
      (Plic.disableCore (Plic.enableCore zeroRegs 1 0) 1 0) 1 0 =
      some false :=
  C5_enable_disable_round zeroRegs 1 0 (by decide) (by decide) (by decide)

/-- Witness for C6: toggling source 1 in context 0 does not affect the
observation of source 2 in context 0. -/
theorem C6_witness :
    (Plic.enable zeroRegs 1 0).elim True (fun r1 =>
      Plic.is_enabled r1 2 0 = Plic.is_enabled zeroRegs 2 0 ∧
      r1.InterruptPriority = zeroRegs.InterruptPriority ∧
      r1.InterruptPending = zeroRegs.InterruptPending ∧
      r1.PriorityThreshold = zeroRegs.PriorityThreshold) ∧
    (Plic.disable zeroRegs 1 0).elim True (fun r1 =>
      Plic.is_enabled r1 2 0 = Plic.is_enabled zeroRegs 2 0 ∧
      r1.InterruptPriority = zeroRegs.InterruptPriority ∧
      r1.InterruptPending = zeroRegs.InterruptPending ∧
      r1.PriorityThreshold = zeroRegs.PriorityThreshold) :=
  C6_frame zeroRegs 1 0 2 0 (Or.inl (by decide))

/-- Witness for C7 at context 0, other context 1. -/
theorem C7_witness :
    Plic.init_by_context zeroRegs 0 = some (Plic.initCore zeroRegs 0) ∧
    (Plic.initCore zeroRegs 0).PriorityThreshold 0 = 0 ∧
    (Plic.initCore zeroRegs 0).PriorityThreshold 1 =
      zeroRegs.PriorityThreshold 1 ∧
    (Plic.initCore zeroRegs 0).InterruptPriority =
      zeroRegs.InterruptPriority ∧
    (Plic.initCore zeroRegs 0).InterruptPending =
      zeroRegs.InterruptPending ∧
    (Plic.initCore zeroRegs 0).InterruptEnable =
      zeroRegs.InterruptEnable :=
  C7_init zeroRegs 0 1 (by decide) (by decide)

/-- Witness for the amended C8 at privileges `[1, 2]`, hart 1, supervisor
mode: the index is `1 + 1 = 2`. -/
theorem C8_witness :
    SimpleContext.index ⟨[1, 2], 1, Mode.Supervisor⟩ =
      some ((([1, 2] : List Nat).take 1).sum + Mode.ord Mode.Supervisor) :=
  (C8_index_amended [1, 2] 1 Mode.Supervisor (by decide) (by decide)
    (by decide)).1

/-- Witness for the amended C9 at concrete out-of-range arguments. -/
theorem C9_witness :
    Plic.new 0 = none ∧
    Plic.init_by_context zeroRegs 15872 = none ∧
    Plic.set_threshold zeroRegs 15872 0 = none ∧
    Plic.get_threshold zeroRegs 15872 = none ∧
    Plic.probe_threshold_bits zeroRegs 15872 = none ∧
    Plic.claim zeroHw 15872 = none ∧
    Plic.complete zeroHw 15872 5 = none ∧
    Plic.enable zeroRegs 5 15872 = none ∧
    Plic.disable zeroRegs 5 15872 = none ∧
    Plic.is_enabled zeroRegs 5 15872 = none ∧
    Plic.set_priority zeroRegs 1024 0 = none ∧
    Plic.get_priority zeroRegs 1024 = none ∧
    Plic.probe_priority_bits zeroRegs 1024 = none ∧
    Plic.is_pending zeroRegs 1024 = none ∧
    Plic.enable zeroRegs 1024 0 = none ∧
    Plic.disable zeroRegs 1024 0 = none ∧
    Plic.is_enabled zeroRegs 1024 0 = none ∧
    (Plic.complete zeroHw 0 5).isSome = true :=
  C9_contract_violations zeroRegs zeroHw 15872 0 1024 5 0
    (by decide) (by decide) (by decide)

/-- Witness for C10 at the empty privileges slice. -/
theorem C10_witness : SimpleContext.index ⟨[], 0, Mode.Machine⟩ = none :=
  C10_index_out_of_bounds [] 0 Mode.Machine (by decide)

end RiscvPlic
